import Mathlib

/-!
Verification of the air-quality predictor pipeline.

This file gives a shallow embedding of the lag-feature logic of the
repository and proves/refutes the claims of the specification against it.

Modelling conventions:
* A pandas DataFrame of air-quality observations is a `List Obs`; a calendar
  date is an `Int` counting days (so K days earlier is subtraction by K,
  and consecutive calendar days are consecutive integers).
* `pm25` and weather values are `Rat`; the astype-float32 casts in the
  source change the storage width only and are modelled as the identity.
* A missing value (NaN / None) in a lag column is `Option.none`.
* In `backfill-feature-pipeline.py`, `add_lagged_features` sorts the combined
  table by `(id, date)` and then, per location mask, applies a positional
  `shift(k)` to the `pm25` column.  Sorting by `(id, date)` makes each
  rows of each location a contiguous, date-sorted block, so the table is
  embedded as the concatenation, over the sorted distinct ids, of the
  per-location date-sorted blocks, and `shift(k)` within a block reads the
  entry `k` positions earlier.
* In `daily-feature-pipeline.py`, `add_lagged_features` receives the rows of today
  and a trailing window read from the feature store; for each row it filters
  the window to the location of the row, sorts by date, and looks up the row at
  exactly `date - k`, assigning `None` when absent.
* The per-location loop of `batch-inference-pipeline.py` is embedded with the
  trained regressor abstracted as a function `List Rat → Rat` from the
  feature vector (in column order) to the raw prediction.
* `util.get_pm25` performs HTTP calls; the response left after the
  station/city fallback is abstracted as an `AqicnResponse` value and the
  status and missing-field checks of the function are embedded directly; a raised
  exception is `Except.error`.
-/

/-- Air-quality observation row: columns `id`, `date`, `pm25` of the
canonical table produced by `process_air_quality` / `get_pm25`. -/
structure Obs where
  id : String
  date : Int
  pm25 : Rat
deriving DecidableEq, Repr, Inhabited

/-- Observation row extended with the three lag columns `lagged_1`,
`lagged_2`, `lagged_3` (`none` models NaN/None). -/
structure LaggedObs where
  id : String
  date : Int
  pm25 : Rat
  lagged_1 : Option Rat
  lagged_2 : Option Rat
  lagged_3 : Option Rat
deriving DecidableEq, Repr, Inhabited

/-- Date order used by the date sort of the pipelines. -/
def dateLE (a b : Obs) : Prop := a.date ≤ b.date

instance : DecidableRel dateLE := fun a b => decidable_of_iff (a.date ≤ b.date) Iff.rfl

instance : IsTotal Obs dateLE := ⟨fun a b => Int.le_total a.date b.date⟩

instance : IsTrans Obs dateLE := ⟨fun _ _ _ h1 h2 => le_trans h1 h2⟩

/-- Sort an observation list by ascending date (sort_values by date). -/
def sortByDate (l : List Obs) : List Obs := List.insertionSort dateLE l

/-- Rows of one location, in ascending date order: the block that the
backfill (id, date) sort produces for `location_id = lid`. -/
def seriesOf (df : List Obs) (lid : String) : List Obs :=
  sortByDate (df.filter (fun o => o.id == lid))

/-- Positional `shift(k)` read: the `pm25` value `k` positions earlier in the
location block, `none` for the first `k` rows. -/
def lagShift (s : List Obs) (i k : Nat) : Option Rat :=
  if k ≤ i then (s[i - k]?).map Obs.pm25 else none

/-- Attach the three positional-shift lag columns to a location block
(shift(1..3) of the pm25 column in the backfill pipeline). -/
def shiftLags (s : List Obs) : List LaggedObs :=
  (List.finRange s.length).map fun i =>
    { id := (s.get i).id, date := (s.get i).date, pm25 := (s.get i).pm25,
      lagged_1 := lagShift s i.val 1,
      lagged_2 := lagShift s i.val 2,
      lagged_3 := lagShift s i.val 3 }

/-- Distinct location ids in ascending order: unique() of the id column on
the `(id, date)`-sorted table. -/
def sortedIds (df : List Obs) : List String :=
  List.insertionSort (fun a b : String => a ≤ b) (df.map Obs.id).dedup

namespace Backfill

/-- Embedding of `add_lagged_features` of `backfill-feature-pipeline.py`:
sort by `(id, date)` and add per-location positional-shift lag columns. -/
def add_lagged_features (df : List Obs) : List LaggedObs :=
  (sortedIds df).flatMap fun lid => shiftLags (seriesOf df lid)

/-- Lag-relevant core of `load_air_quality_data`: after adding lagged
features, dropna on the three lag columns. -/
def load_air_quality_data (df : List Obs) : List LaggedObs :=
  (add_lagged_features df).filter fun r =>
    r.lagged_1.isSome && r.lagged_2.isSome && r.lagged_3.isSome

end Backfill

namespace Daily

/-- Single lag lookup of `daily-feature-pipeline.py`: filter the trailing
window to the location, sort by date, select the rows at exactly `d - k`,
and take `iloc[0]` of the selection if non-empty. -/
def lookupLag (window : List Obs) (lid : String) (d k : Int) : Option Rat :=
  (((sortByDate (window.filter (fun o => o.id == lid))).filter
      (fun o => o.date == d - k)).head?).map Obs.pm25

/-- Embedding of `add_lagged_features` of `daily-feature-pipeline.py`:
for each row of today, look up the lags in the trailing window; the row
itself is kept whether or not the lookups succeed. -/
def add_lagged_features (newRows window : List Obs) : List LaggedObs :=
  newRows.map fun r =>
    { id := r.id, date := r.date, pm25 := r.pm25,
      lagged_1 := lookupLag window r.id r.date 1,
      lagged_2 := lookupLag window r.id r.date 2,
      lagged_3 := lookupLag window r.id r.date 3 }

end Daily

/-- Trailing window read by the daily pipeline: rows of the stored history
with `date >= today - 4` (`air_quality_fg.filter(...)`), with `d` = today. -/
def incWindow (history : List Obs) (d : Int) : List Obs :=
  history.filter fun o => d - 4 ≤ o.date

/-- Lag triple the incremental (daily) mode computes for `(lid, d)` from the
trailing window of `history`. -/
def incLagsAt (history : List Obs) (lid : String) (d : Int) :
    Option Rat × Option Rat × Option Rat :=
  (Daily.lookupLag (incWindow history d) lid d 1,
   Daily.lookupLag (incWindow history d) lid d 2,
   Daily.lookupLag (incWindow history d) lid d 3)

/-- Lag triple batch mode stores for the row `(lid, d)`, if that row exists
in the batch output. -/
def batchLagsAt (df : List Obs) (lid : String) (d : Int) :
    Option (Option Rat × Option Rat × Option Rat) :=
  ((Backfill.add_lagged_features df).find? fun r => r.id == lid && r.date == d).map
    fun r => (r.lagged_1, r.lagged_2, r.lagged_3)

/-- Select the lag-`k` column of a row, for `k` in 1..3. -/
def LaggedObs.lagOf (r : LaggedObs) (k : Int) : Option Rat :=
  if k = 1 then r.lagged_1 else if k = 2 then r.lagged_2 else
    if k = 3 then r.lagged_3 else none

/-- Statement of claim C1 taken from the words of the specification: in the batch
output, `lagK` is populated if and only if an observation of the same
location exists at exactly `K` calendar days earlier in the supplied table,
in which case it carries the `pm25` of that observation; otherwise it is absent. -/
def calendarExactLags (df : List Obs) : Prop :=
  ∀ r ∈ Backfill.add_lagged_features df, ∀ k ∈ ([1, 2, 3] : List Int),
    (∃ o ∈ df, o.id = r.id ∧ o.date = r.date - k ∧ r.lagOf k = some o.pm25) ∨
    ((¬ ∃ o ∈ df, o.id = r.id ∧ o.date = r.date - k) ∧ r.lagOf k = none)

/-- Observations of location `lid` strictly earlier than date `d`, in
ascending date order. -/
def earlierObs (df : List Obs) (lid : String) (d : Int) : List Obs :=
  (seriesOf df lid).filter fun o => o.date < d

/-- Value of the `k`-th most recent observation of `lid` strictly earlier
than `d` (`k` counted from 1), `none` when fewer than `k` exist. -/
def kthMostRecentEarlier (df : List Obs) (lid : String) (d : Int) (k : Nat) :
    Option Rat :=
  ((earlierObs df lid d).reverse[k - 1]?).map Obs.pm25

/-- Canonical-table invariant of the data model: at most one observation per
`(location_id, date)` pair. -/
def obsKeysUnique (df : List Obs) : Prop :=
  df.Pairwise fun a b => a.id ≠ b.id ∨ a.date ≠ b.date

instance (df : List Obs) : Decidable (obsKeysUnique df) :=
  inferInstanceAs (Decidable (List.Pairwise _ df))

/-- Daily weather forecast row as consumed by the inference pipeline. -/
structure WeatherRow where
  id : String
  date : Int
  temperature_2m_mean : Rat
  precipitation_sum : Rat
  wind_speed_10m_max : Rat
  wind_direction_10m_dominant : Rat
deriving DecidableEq, Repr, Inhabited

/-- Row appended to `predictions_list` by the inference pipeline. -/
structure Prediction where
  id : String
  date : Int
  predicted_pm25 : Rat
  forecast_date : Int
deriving DecidableEq, Repr, Inhabited

namespace Inference

/-- Feature vector construction (`feature_row` in the inference pipeline):
an association list whose insertion order is the column order handed to the
regressor. -/
def featureRow (l1 l2 l3 : Rat) (w : WeatherRow) : List (String × Rat) :=
  [("lagged_1", l1), ("lagged_2", l2), ("lagged_3", l3),
   ("weather_temperature_2m_mean", w.temperature_2m_mean),
   ("weather_precipitation_sum", w.precipitation_sum),
   ("weather_wind_speed_10m_max", w.wind_speed_10m_max),
   ("weather_wind_direction_10m_dominant", w.wind_direction_10m_dominant)]

/-- Training-time feature column order stated by the specification. -/
def featureColumnOrder : List String :=
  ["lagged_1", "lagged_2", "lagged_3",
   "weather_temperature_2m_mean", "weather_precipitation_sum",
   "weather_wind_speed_10m_max", "weather_wind_direction_10m_dominant"]

/-- Sort by date, newest first (descending date sort of the inference pipeline). -/
def sortByDateDesc (l : List Obs) : List Obs :=
  List.insertionSort (fun a b : Obs => b.date ≤ a.date) l

/-- Fixed lag triple of a location at inference time: `pm25` of the three
most recent historical records (`iloc[0..2]` after the descending sort),
`none` when fewer than three records exist. -/
def fixedLagTriple (historical_aq : List Obs) (lid : String) :
    Option (Rat × Rat × Rat) :=
  match sortByDateDesc (historical_aq.filter (fun o => o.id == lid)) with
  | h0 :: h1 :: h2 :: _ => some (h0.pm25, h1.pm25, h2.pm25)
  | _ => none

/-- Per-location inference work list: each forecast-day weather row of the
location paired with the feature vector built for it.  Empty when the
location has no forecast rows or fewer than three historical records
(the two `continue` branches of the source loop). -/
def locationFeatureItems (batch_data : List WeatherRow) (historical_aq : List Obs)
    (lid : String) : List (WeatherRow × List (String × Rat)) :=
  if (batch_data.filter (fun w => w.id == lid)).isEmpty then []
  else
    match fixedLagTriple historical_aq lid with
    | none => []
    | some (l1, l2, l3) =>
      (batch_data.filter (fun w => w.id == lid)).map
        (fun w => (w, featureRow l1 l2 l3 w))

/-- Feature vectors built for a location, one per forecast day. -/
def locationFeatureRows (batch_data : List WeatherRow) (historical_aq : List Obs)
    (lid : String) : List (List (String × Rat)) :=
  (locationFeatureItems batch_data historical_aq lid).map Prod.snd

/-- Post-processing of a raw regressor output: `max(0, prediction)`. -/
def clampNonNeg (x : Rat) : Rat := max 0 x

/-- Predictions emitted for one location by the inference loop body. -/
def processLocation (model : List Rat → Rat) (today : Int)
    (batch_data : List WeatherRow) (historical_aq : List Obs) (lid : String) :
    List Prediction :=
  (locationFeatureItems batch_data historical_aq lid).map fun item =>
    { id := lid, date := item.fst.date,
      predicted_pm25 := clampNonNeg (model (item.snd.map Prod.snd)),
      forecast_date := today }

/-- Whole inference loop over the configured locations. -/
def runInference (model : List Rat → Rat) (today : Int) (locs : List String)
    (batch_data : List WeatherRow) (historical_aq : List Obs) : List Prediction :=
  locs.flatMap (processLocation model today batch_data historical_aq)

end Inference

/-- Final AQICN response (after the unknown-station city fallback), reduced
to the fields `get_pm25` inspects: overall status and the optional
`iaqi.pm25.v` value. -/
structure AqicnResponse where
  status_ok : Bool
  pm25 : Option Rat
deriving DecidableEq, Repr, Inhabited

/-- Embedding of the fallible part of `util.get_pm25`: raise on a non-ok
status, raise when the PM2.5 field is missing, otherwise build the one-row
table `{id, date, pm25}`. -/
def get_pm25 (location_id : String) (measurement_date : Int)
    (resp : AqicnResponse) : Except String Obs :=
  if resp.status_ok then
    match resp.pm25 with
    | some v => Except.ok { id := location_id, date := measurement_date, pm25 := v }
    | none => Except.error ("No PM2.5 data available")
  else Except.error ("API error")

/-- Ingestion loop of `daily-feature-pipeline.py`: per location, try
`get_pm25` and append the fetched row; on any exception, log and continue
with the next location. -/
def ingestDaily (resp : String → AqicnResponse) (today : Int) :
    List String → List Obs
  | [] => []
  | lid :: rest =>
    match get_pm25 lid today (resp lid) with
    | Except.ok o => o :: ingestDaily resp today rest
    | Except.error _ => ingestDaily resp today rest

/-- History with a calendar gap: location L observed on days 0 and 2 but not
on day 1. -/
def exGap : List Obs :=
  [{ id := "L", date := 0, pm25 := 10 }, { id := "L", date := 2, pm25 := 30 }]

/-- Concrete scenario of the specification: location X1 observed on four
consecutive days (2024-01-01..04 as day numbers 1..4) with pm25 10,20,30,40. -/
def exX1 : List Obs :=
  [{ id := "X1", date := 1, pm25 := 10 }, { id := "X1", date := 2, pm25 := 20 },
   { id := "X1", date := 3, pm25 := 30 }, { id := "X1", date := 4, pm25 := 40 }]

/-- Batch output row for day 2 of `exGap`: `lagged_1` carries the day-0
value across the gap. -/
def laggedRowGap : LaggedObs :=
  { id := "L", date := 2, pm25 := 30, lagged_1 := some 10,
    lagged_2 := none, lagged_3 := none }

/-- Batch output row for day 4 of `exX1`. -/
def laggedRowX1 : LaggedObs :=
  { id := "X1", date := 4, pm25 := 40, lagged_1 := some 30,
    lagged_2 := some 20, lagged_3 := some 10 }

instance (df : List Obs) : Decidable (calendarExactLags df) :=
  inferInstanceAs (Decidable
    (∀ r ∈ Backfill.add_lagged_features df, ∀ k ∈ ([1, 2, 3] : List Int),
      (∃ o ∈ df, o.id = r.id ∧ o.date = r.date - k ∧ r.lagOf k = some o.pm25) ∨
      ((¬ ∃ o ∈ df, o.id = r.id ∧ o.date = r.date - k) ∧ r.lagOf k = none)))

/-- Three historical records for location L, most recent first when sorted:
day 3 with pm25 5, day 2 with 6, day 1 with 7. -/
def exHist567 : List Obs :=
  [{ id := "L", date := 3, pm25 := 5 }, { id := "L", date := 2, pm25 := 6 },
   { id := "L", date := 1, pm25 := 7 }]

/-- Only two historical records for location L. -/
def exHist2 : List Obs :=
  [{ id := "L", date := 3, pm25 := 5 }, { id := "L", date := 2, pm25 := 6 }]

/-- Weather forecast row for location L at day `d`. -/
def exW (d : Int) : WeatherRow :=
  { id := "L", date := d, temperature_2m_mean := 20, precipitation_sum := 1,
    wind_speed_10m_max := 10, wind_direction_10m_dominant := 180 }

/-- Three forecast days of weather for location L. -/
def exBatch : List WeatherRow := [exW 4, exW 5, exW 6]

/-- Leading lag entries every feature vector of the `exHist567` scenario
must carry. -/
def lagTriple567 : List (String × Rat) :=
  [("lagged_1", 5), ("lagged_2", 6), ("lagged_3", 7)]

/-- Feature vector built for the day-4 forecast row in that scenario. -/
def exFr : List (String × Rat) := Inference.featureRow 5 6 7 (exW 4)

/-- Regressor stub that always returns a negative raw prediction. -/
def exModelNeg : List Rat → Rat := fun _ => -5

/-- Prediction the inference loop emits for day 4 under `exModelNeg`. -/
def exPred : Prediction :=
  { id := "L", date := 4, predicted_pm25 := 0, forecast_date := 0 }

/-- Response provider where only station bad fails. -/
def exResp : String → AqicnResponse :=
  fun lid => if lid = "bad" then { status_ok := false, pm25 := none }
    else { status_ok := true, pm25 := some 42 }

/-- Single row ingested today for the daily-pipeline scenario. -/
def exNew : List Obs := [{ id := "L", date := 10, pm25 := 50 }]

/-- Trailing window with a gap: days 9 and 7 present, day 8 missing. -/
def exWin : List Obs :=
  [{ id := "L", date := 9, pm25 := 40 }, { id := "L", date := 7, pm25 := 20 }]

/-- Row the daily pipeline produces for `exNew` against `exWin`. -/
def exRowDaily : LaggedObs :=
  { id := "L", date := 10, pm25 := 50, lagged_1 := some 40,
    lagged_2 := none, lagged_3 := some 20 }

/-! Helper lemmas about the sorted per-location series. -/

theorem seriesOf_perm (df : List Obs) (lid : String) :
    (seriesOf df lid).Perm (df.filter (fun o => o.id == lid)) :=
  List.perm_insertionSort _ _

theorem mem_seriesOf {df : List Obs} {lid : String} {o : Obs} :
    o ∈ seriesOf df lid ↔ o ∈ df ∧ o.id = lid := by
  rw [(seriesOf_perm df lid).mem_iff, List.mem_filter]
  simp

theorem seriesOf_sorted (df : List Obs) (lid : String) :
    List.Pairwise dateLE (seriesOf df lid) :=
  List.sorted_insertionSort _ _

theorem length_seriesOf (df : List Obs) (lid : String) :
    (seriesOf df lid).length = (df.filter (fun o => o.id == lid)).length :=
  (seriesOf_perm df lid).length_eq

theorem seriesOf_id {df : List Obs} {lid : String} {o : Obs}
    (h : o ∈ seriesOf df lid) : o.id = lid := (mem_seriesOf.mp h).2

theorem pairwise_key_eq {l : List Obs}
    (hp : l.Pairwise (fun a b => a.id ≠ b.id ∨ a.date ≠ b.date)) :
    ∀ a ∈ l, ∀ b ∈ l, a.id = b.id → a.date = b.date → a = b := by
  induction l with
  | nil => intro a ha; simp at ha
  | cons x t ih =>
    rcases List.pairwise_cons.mp hp with ⟨hx, ht⟩
    intro a ha b hb hid hdate
    rcases List.mem_cons.mp ha with rfl | ha' <;>
      rcases List.mem_cons.mp hb with rfl | hb'
    · rfl
    · rcases hx b hb' with h | h
      · exact absurd hid h
      · exact absurd hdate h
    · rcases hx a ha' with h | h
      · exact absurd hid.symm h
      · exact absurd hdate.symm h
    · exact ih ht a ha' b hb' hid hdate

theorem seriesOf_dates_distinct {df : List Obs} (hu : obsKeysUnique df)
    (lid : String) :
    (seriesOf df lid).Pairwise (fun a b => a.date ≠ b.date) := by
  have h1 : (df.filter (fun o => o.id == lid)).Pairwise
      (fun a b => a.id ≠ b.id ∨ a.date ≠ b.date) :=
    List.Pairwise.sublist (List.filter_sublist df) hu
  have h2 : (df.filter (fun o => o.id == lid)).Pairwise
      (fun a b => a.date ≠ b.date) := by
    refine h1.imp_of_mem ?_
    intro a b ha hb hab
    rcases hab with h | h
    · rcases List.mem_filter.mp ha with ⟨-, ha2⟩
      rcases List.mem_filter.mp hb with ⟨-, hb2⟩
      exact absurd (by simp only [beq_iff_eq] at ha2 hb2; rw [ha2, hb2]) h
    · exact h
  exact ((seriesOf_perm df lid).pairwise_iff (fun h => h.symm)).mpr h2

theorem seriesOf_dates_strict {df : List Obs} (hu : obsKeysUnique df)
    (lid : String) :
    (seriesOf df lid).Pairwise (fun a b => a.date < b.date) := by
  have h := (seriesOf_sorted df lid).and (seriesOf_dates_distinct hu lid)
  exact h.imp (fun hab => lt_of_le_of_ne hab.1 hab.2)

theorem mem_shiftLags {s : List Obs} {r : LaggedObs} :
    r ∈ shiftLags s ↔ ∃ i : Fin s.length,
      r = { id := (s.get i).id, date := (s.get i).date, pm25 := (s.get i).pm25,
            lagged_1 := lagShift s i.val 1, lagged_2 := lagShift s i.val 2,
            lagged_3 := lagShift s i.val 3 } := by
  simp [shiftLags, List.mem_map, eq_comm]

theorem filter_lt_take (s : List Obs)
    (hs : s.Pairwise (fun a b => a.date < b.date)) :
    ∀ (i : Nat) (hi : i < s.length),
      s.filter (fun o => o.date < (s.get ⟨i, hi⟩).date) = s.take i := by
  induction s with
  | nil => intro i hi; simp at hi
  | cons x t ih =>
    intro i hi
    rcases List.pairwise_cons.mp hs with ⟨hx, ht⟩
    cases i with
    | zero =>
      simp only [List.take_zero]
      refine List.filter_eq_nil_iff.mpr ?_
      intro a ha
      rcases List.mem_cons.mp ha with rfl | ha'
      · simp
      · simp only [decide_eq_true_eq]
        exact not_lt.mpr (le_of_lt (hx a ha'))
    | succ n =>
      have hn : n < t.length := by simpa using hi
      have hbd : (x :: t).get ⟨n + 1, hi⟩ = t.get ⟨n, hn⟩ := rfl
      rw [hbd, List.filter_cons]
      have hxlt : x.date < (t.get ⟨n, hn⟩).date :=
        hx _ (List.get_mem t n hn)
      rw [if_pos (by simpa using hxlt)]
      rw [ih ht n hn]
      rfl

theorem take_reverse_getElem (s : List Obs) (i k : Nat) (hi : i ≤ s.length)
    (hk : 1 ≤ k) :
    ((s.take i).reverse)[k - 1]? = if k ≤ i then s[i - k]? else none := by
  have hlen : (s.take i).length = i := by
    rw [List.length_take]; omega
  by_cases h : k ≤ i
  · rw [if_pos h]
    rw [List.getElem?_reverse (by rw [hlen]; omega)]
    rw [hlen]
    have he : i - 1 - (k - 1) = i - k := by omega
    rw [he, List.getElem?_take, if_pos (by omega : i - k < i)]
  · rw [if_neg h]
    refine List.getElem?_eq_none ?_
    rw [List.length_reverse, hlen]; omega

theorem lagShift_eq_kth (df : List Obs) (hu : obsKeysUnique df) (lid : String)
    (i : Nat) (hi : i < (seriesOf df lid).length) (k : Nat) (hk : 1 ≤ k) :
    lagShift (seriesOf df lid) i k =
      kthMostRecentEarlier df lid ((seriesOf df lid).get ⟨i, hi⟩).date k := by
  have hstrict := seriesOf_dates_strict hu lid
  unfold kthMostRecentEarlier earlierObs
  rw [filter_lt_take (seriesOf df lid) hstrict i hi]
  rw [take_reverse_getElem (seriesOf df lid) i k (le_of_lt hi) hk]
  unfold lagShift
  by_cases h : k ≤ i
  · rw [if_pos h, if_pos h]
  · rw [if_neg h, if_neg h]; rfl

/-! Helper lemmas about batch-mode membership. -/

theorem mem_backfill_add {df : List Obs} {r : LaggedObs} :
    r ∈ Backfill.add_lagged_features df ↔
      ∃ lid ∈ sortedIds df, r ∈ shiftLags (seriesOf df lid) := by
  unfold Backfill.add_lagged_features
  exact List.mem_flatMap

theorem shiftLags_mem_id {df : List Obs} {lid : String} {r : LaggedObs}
    (hr : r ∈ shiftLags (seriesOf df lid)) : r.id = lid := by
  obtain ⟨i, rfl⟩ := mem_shiftLags.mp hr
  exact seriesOf_id (List.get_mem _ i.val i.isLt)

theorem mem_backfill_group {df : List Obs} {r : LaggedObs}
    (hr : r ∈ Backfill.add_lagged_features df) :
    r ∈ shiftLags (seriesOf df r.id) := by
  obtain ⟨lid, -, hmem⟩ := mem_backfill_add.mp hr
  rw [shiftLags_mem_id hmem]
  exact hmem

/-! Helper lemmas about the incremental lag lookup. -/

theorem lookupLag_spec_of_some {window : List Obs} {lid : String} {d k : Int}
    (h : Daily.lookupLag window lid d k ≠ none) :
    ∃ o ∈ window, o.id = lid ∧ o.date = d - k ∧
      Daily.lookupLag window lid d k = some o.pm25 := by
  unfold Daily.lookupLag at h ⊢
  cases hf : (sortByDate (window.filter (fun o => o.id == lid))).filter
      (fun o => o.date == d - k) with
  | nil => rw [hf] at h; simp at h
  | cons a rest =>
    have ha : a ∈ (sortByDate (window.filter (fun o => o.id == lid))).filter
        (fun o => o.date == d - k) := by
      rw [hf]; exact List.mem_cons_self a rest
    rcases List.mem_filter.mp ha with ⟨hat, hadate⟩
    have haw : a ∈ window.filter (fun o => o.id == lid) :=
      (List.perm_insertionSort _ _).mem_iff.mp hat
    rcases List.mem_filter.mp haw with ⟨h1, h2⟩
    refine ⟨a, h1, by simpa using h2, by simpa using hadate, ?_⟩
    rfl

theorem lookupLag_eq_of_mem {window : List Obs} {lid : String} {d k : Int}
    (hu : window.Pairwise (fun a b => a.id ≠ b.id ∨ a.date ≠ b.date))
    {o : Obs} (ho : o ∈ window) (hid : o.id = lid) (hd : o.date = d - k) :
    Daily.lookupLag window lid d k = some o.pm25 := by
  have hmem_t : o ∈ sortByDate (window.filter (fun x => x.id == lid)) := by
    refine (List.perm_insertionSort _ _).mem_iff.mpr ?_
    exact List.mem_filter.mpr ⟨ho, by simp [hid]⟩
  have hmem_f : o ∈ (sortByDate (window.filter (fun x => x.id == lid))).filter
      (fun x => x.date == d - k) :=
    List.mem_filter.mpr ⟨hmem_t, by simp [hd]⟩
  have hne : Daily.lookupLag window lid d k ≠ none := by
    unfold Daily.lookupLag
    cases hf : (sortByDate (window.filter (fun x => x.id == lid))).filter
        (fun x => x.date == d - k) with
    | nil => rw [hf] at hmem_f; simp at hmem_f
    | cons a rest => simp
  obtain ⟨a, haw, haid, hadate, heq⟩ := lookupLag_spec_of_some hne
  have hao : a = o :=
    pairwise_key_eq hu a haw o ho (by rw [haid, hid]) (by rw [hadate, hd])
  rw [heq, hao]

theorem dates_mono {s : List Obs} (hst : s.Pairwise (fun a b => a.date < b.date))
    (a b : Nat) (ha : a < s.length) (hb : b < s.length) (hab : a < b) :
    (s.get ⟨a, ha⟩).date < (s.get ⟨b, hb⟩).date := by
  have h := List.pairwise_iff_getElem.mp hst a b ha hb hab
  simpa [List.get_eq_getElem] using h

theorem index_of_pred {s : List Obs}
    (hst : s.Pairwise (fun a b => a.date < b.date)) (i j : Nat)
    (hi : i < s.length) (hj : j < s.length)
    (hd : (s.get ⟨j, hj⟩).date = (s.get ⟨i, hi⟩).date - 1) : j + 1 = i := by
  rcases lt_trichotomy j i with h | h | h
  · by_contra hne
    have h1 : j + 1 < i := by omega
    have hm : j + 1 < s.length := by omega
    have a1 := dates_mono hst j (j + 1) hj hm (by omega)
    have a2 := dates_mono hst (j + 1) i hm hi h1
    omega
  · subst h; omega
  · have a1 := dates_mono hst i j hi hj h
    omega

/-! Helper lemmas for the inference pipeline. -/

theorem fixedLagTriple_eq_none {hist : List Obs} {lid : String}
    (h : (hist.filter (fun o => o.id == lid)).length < 3) :
    Inference.fixedLagTriple hist lid = none := by
  unfold Inference.fixedLagTriple
  have hl : (Inference.sortByDateDesc (hist.filter (fun o => o.id == lid))).length < 3 := by
    unfold Inference.sortByDateDesc
    rw [List.length_insertionSort]; exact h
  cases hs : Inference.sortByDateDesc (hist.filter (fun o => o.id == lid)) with
  | nil => rfl
  | cons a t =>
    cases t with
    | nil => rfl
    | cons b u =>
      cases u with
      | nil => rfl
      | cons c v => rw [hs] at hl; simp at hl; omega

theorem locationFeatureItems_eq_nil {batch : List WeatherRow} {hist : List Obs}
    {lid : String} (h : (hist.filter (fun o => o.id == lid)).length < 3) :
    Inference.locationFeatureItems batch hist lid = [] := by
  unfold Inference.locationFeatureItems
  rw [fixedLagTriple_eq_none h]
  by_cases he : (batch.filter (fun w => w.id == lid)).isEmpty <;> simp [he]

theorem mem_locationFeatureItems {batch : List WeatherRow} {hist : List Obs}
    {lid : String} {item : WeatherRow × List (String × Rat)}
    (hm : item ∈ Inference.locationFeatureItems batch hist lid) :
    ∃ l1 l2 l3, Inference.fixedLagTriple hist lid = some (l1, l2, l3) ∧
      item.fst ∈ batch.filter (fun w => w.id == lid) ∧
      item.snd = Inference.featureRow l1 l2 l3 item.fst := by
  unfold Inference.locationFeatureItems at hm
  by_cases he : (batch.filter (fun w => w.id == lid)).isEmpty
  · rw [if_pos he] at hm; simp at hm
  · rw [if_neg he] at hm
    cases htrip : Inference.fixedLagTriple hist lid with
    | none => rw [htrip] at hm; simp at hm
    | some trip =>
      obtain ⟨l1, l2, l3⟩ := trip
      rw [htrip] at hm
      rcases List.mem_map.mp hm with ⟨w, hw, hwe⟩
      exact ⟨l1, l2, l3, rfl, by rw [← hwe]; exact hw, by rw [← hwe]⟩

theorem mem_locationFeatureRows {batch : List WeatherRow} {hist : List Obs}
    {lid : String} {fr : List (String × Rat)}
    (hm : fr ∈ Inference.locationFeatureRows batch hist lid) :
    ∃ l1 l2 l3 w, Inference.fixedLagTriple hist lid = some (l1, l2, l3) ∧
      w ∈ batch.filter (fun x => x.id == lid) ∧
      fr = Inference.featureRow l1 l2 l3 w := by
  rcases List.mem_map.mp hm with ⟨item, hitem, hsnd⟩
  rcases mem_locationFeatureItems hitem with ⟨l1, l2, l3, htrip, hw, hfr⟩
  exact ⟨l1, l2, l3, item.fst, htrip, hw, by rw [← hsnd, hfr]⟩

theorem pairwise_flatMap_of {α β : Type} (f : α → List β) (R : β → β → Prop)
    (l : List α) (h1 : ∀ a ∈ l, (f a).Pairwise R)
    (h2 : l.Pairwise (fun a b => ∀ x ∈ f a, ∀ y ∈ f b, R x y)) :
    (l.flatMap f).Pairwise R := by
  induction l with
  | nil => simp
  | cons a t ih =>
    rw [List.flatMap_cons]
    rcases List.pairwise_cons.mp h2 with ⟨ha, ht⟩
    refine List.pairwise_append.mpr ⟨h1 a (List.mem_cons_self a t), ?_, ?_⟩
    · exact ih (fun b hb => h1 b (List.mem_cons_of_mem a hb)) ht
    · intro x hx y hy
      rcases List.mem_flatMap.mp hy with ⟨b, hb, hyb⟩
      exact ha b hb x hx y hyb

theorem sortedIds_nodup (df : List Obs) : (sortedIds df).Nodup := by
  unfold sortedIds
  exact ((List.perm_insertionSort _ _).nodup_iff).mpr (List.nodup_dedup _)

theorem backfill_pairwise_keys (df : List Obs) (hu : obsKeysUnique df) :
    (Backfill.add_lagged_features df).Pairwise
      (fun a b => a.id ≠ b.id ∨ a.date ≠ b.date) := by
  unfold Backfill.add_lagged_features
  refine pairwise_flatMap_of _ _ _ ?_ ?_
  · intro lid _
    have hstrict := seriesOf_dates_strict hu lid
    unfold shiftLags
    rw [List.pairwise_map]
    refine List.Pairwise.imp_of_mem ?_ (List.pairwise_lt_finRange _)
    intro i j _ _ hij
    exact Or.inr (ne_of_lt (dates_mono hstrict i.val j.val i.isLt j.isLt hij))
  · have hnd : List.Pairwise (fun a b => a ≠ b) (sortedIds df) := sortedIds_nodup df
    refine hnd.imp ?_
    intro a b hab x hx y hy
    exact Or.inl (by rw [shiftLags_mem_id hx, shiftLags_mem_id hy]; exact hab)

theorem countP_key_le_one (df : List Obs) (hu : obsKeysUnique df)
    (lid : String) (d : Int) :
    df.countP (fun o => o.id == lid && o.date == d) ≤ 1 := by
  induction df with
  | nil => simp
  | cons x t ih =>
    rcases List.pairwise_cons.mp hu with ⟨hx, ht⟩
    rw [List.countP_cons]
    by_cases hpx : (x.id == lid && x.date == d) = true
    · rw [if_pos hpx]
      simp only [Bool.and_eq_true, beq_iff_eq] at hpx
      have hz : t.countP (fun o => o.id == lid && o.date == d) = 0 := by
        rw [List.countP_eq_zero]
        intro o ho hpo
        simp only [Bool.and_eq_true, beq_iff_eq] at hpo
        rcases hx o ho with h | h
        · exact h (hpx.1.trans hpo.1.symm)
        · exact h (hpx.2.trans hpo.2.symm)
      omega
    · rw [if_neg hpx]
      have := ih ht
      omega

theorem daily_map_proj (newRows window : List Obs) :
    (Daily.add_lagged_features newRows window).map
      (fun r => Obs.mk r.id r.date r.pm25) = newRows := by
  unfold Daily.add_lagged_features
  rw [List.map_map]
  exact List.map_id newRows

theorem ingestDaily_eq_filterMap (resp : String → AqicnResponse) (today : Int) :
    ∀ locs : List String, ingestDaily resp today locs =
      locs.filterMap (fun lid => (get_pm25 lid today (resp lid)).toOption) := by
  intro locs
  induction locs with
  | nil => rfl
  | cons lid rest ih =>
    rw [List.filterMap_cons]
    unfold ingestDaily
    cases hc : get_pm25 lid today (resp lid) with
    | ok o => simp [Except.toOption, ih]
    | error e => simp [Except.toOption, ih]

theorem shiftLags_row_lags (df : List Obs) (hu : obsKeysUnique df) (lid : String)
    {r : LaggedObs} (hr : r ∈ shiftLags (seriesOf df lid)) :
    r.lagged_1 = kthMostRecentEarlier df lid r.date 1 ∧
    r.lagged_2 = kthMostRecentEarlier df lid r.date 2 ∧
    r.lagged_3 = kthMostRecentEarlier df lid r.date 3 := by
  obtain ⟨i, rfl⟩ := mem_shiftLags.mp hr
  exact ⟨lagShift_eq_kth df hu lid i.val i.isLt 1 (by norm_num),
         lagShift_eq_kth df hu lid i.val i.isLt 2 (by norm_num),
         lagShift_eq_kth df hu lid i.val i.isLt 3 (by norm_num)⟩

/-- Claim C1, counterexample: on the gapped history `exGap` the batch lag
computation is not calendar-exact — the `lagged_1` of the day-2 row is populated
with the day-0 value although no observation exists at day 1. -/
theorem batch_lag_not_calendar_exact : ¬ calendarExactLags exGap := by decide

/-- Claim C1, amended: in the batch output, `lagK` carries the value of the
K-th most recent observation of the same location strictly earlier in the
table (positional, regardless of calendar distance), and is absent exactly
when fewer than K earlier observations exist. -/
theorem batch_lag_positional (df : List Obs) (hu : obsKeysUnique df) :
    ∀ r ∈ Backfill.add_lagged_features df,
      r.lagged_1 = kthMostRecentEarlier df r.id r.date 1 ∧
      r.lagged_2 = kthMostRecentEarlier df r.id r.date 2 ∧
      r.lagged_3 = kthMostRecentEarlier df r.id r.date 3 := by
  intro r hr
  obtain ⟨lid, -, hmem⟩ := mem_backfill_add.mp hr
  have hid := shiftLags_mem_id hmem
  rw [hid]
  exact shiftLags_row_lags df hu lid hmem

/-- Claim C1, witness: the amended statement evaluated on the gapped
history. -/
theorem batch_lag_positional_witness :
    obsKeysUnique exGap ∧
    laggedRowGap.lagged_1 =
      kthMostRecentEarlier exGap laggedRowGap.id laggedRowGap.date 1 :=
  ⟨by decide, (batch_lag_positional exGap (by decide) laggedRowGap (by decide)).1⟩

/-- Claim C2, counterexample: on the gapped history `exGap`, batch mode
stores `(some 10, none, none)` for (L, day 2) while incremental mode with
the 4-day trailing window computes `(none, some 10, none)`. -/
theorem batch_inc_divergence :
    batchLagsAt exGap ("L") 2 = some (some 10, none, none) ∧
    incLagsAt exGap ("L") 2 = (none, some 10, none) ∧
    batchLagsAt exGap ("L") 2 ≠ some (incLagsAt exGap ("L") 2) := by
  refine ⟨by decide, by decide, by decide⟩

/-- Claim C2, amended: batch and incremental lag values agree for
`(lid, D)` whenever the location actually has observations at each of
`D-1`, `D-2`, `D-3` in the history (no calendar gap in the three trailing
days); under a gap the two modes diverge. -/
theorem batch_inc_equiv_no_gap (df : List Obs) (lid : String) (D : Int)
    (hu : obsKeysUnique df)
    (h1 : ∃ o ∈ df, o.id = lid ∧ o.date = D - 1)
    (h2 : ∃ o ∈ df, o.id = lid ∧ o.date = D - 2)
    (h3 : ∃ o ∈ df, o.id = lid ∧ o.date = D - 3) :
    ∀ r ∈ Backfill.add_lagged_features df, r.id = lid → r.date = D →
      (r.lagged_1, r.lagged_2, r.lagged_3) = incLagsAt df lid D := by
  intro r hr hrid hrD
  obtain ⟨lid', -, hmem⟩ := mem_backfill_add.mp hr
  have hid' : r.id = lid' := shiftLags_mem_id hmem
  have hll : lid' = lid := by rw [← hid', hrid]
  subst hll
  obtain ⟨i, rfl⟩ := mem_shiftLags.mp hmem
  obtain ⟨o1, ho1, ho1id, ho1d⟩ := h1
  obtain ⟨o2, ho2, ho2id, ho2d⟩ := h2
  obtain ⟨o3, ho3, ho3id, ho3d⟩ := h3
  have hstrict : (seriesOf df lid').Pairwise (fun a b => a.date < b.date) :=
    seriesOf_dates_strict hu lid'
  have hrD' : ((seriesOf df lid').get i).date = D := hrD
  obtain ⟨j1, hj1, hj1e⟩ := List.mem_iff_getElem.mp
    (mem_seriesOf.mpr ⟨ho1, ho1id⟩ : o1 ∈ seriesOf df lid')
  obtain ⟨j2, hj2, hj2e⟩ := List.mem_iff_getElem.mp
    (mem_seriesOf.mpr ⟨ho2, ho2id⟩ : o2 ∈ seriesOf df lid')
  obtain ⟨j3, hj3, hj3e⟩ := List.mem_iff_getElem.mp
    (mem_seriesOf.mpr ⟨ho3, ho3id⟩ : o3 ∈ seriesOf df lid')
  have hg1 : (seriesOf df lid').get ⟨j1, hj1⟩ = o1 := hj1e
  have hg2 : (seriesOf df lid').get ⟨j2, hj2⟩ = o2 := hj2e
  have hg3 : (seriesOf df lid').get ⟨j3, hj3⟩ = o3 := hj3e
  have hdi : ((seriesOf df lid').get ⟨i.val, i.isLt⟩).date = D := hrD'
  have hd1 : ((seriesOf df lid').get ⟨j1, hj1⟩).date =
      ((seriesOf df lid').get ⟨i.val, i.isLt⟩).date - 1 := by
    rw [hg1, ho1d, hdi]
  have e1 : j1 + 1 = i.val := index_of_pred hstrict i.val j1 i.isLt hj1 hd1
  have hd2 : ((seriesOf df lid').get ⟨j2, hj2⟩).date =
      ((seriesOf df lid').get ⟨j1, hj1⟩).date - 1 := by
    rw [hg2, ho2d, hg1, ho1d]; omega
  have e2 : j2 + 1 = j1 := index_of_pred hstrict j1 j2 hj1 hj2 hd2
  have hd3 : ((seriesOf df lid').get ⟨j3, hj3⟩).date =
      ((seriesOf df lid').get ⟨j2, hj2⟩).date - 1 := by
    rw [hg3, ho3d, hg2, ho2d]; omega
  have e3 : j3 + 1 = j2 := index_of_pred hstrict j2 j3 hj2 hj3 hd3
  have hl1 : lagShift (seriesOf df lid') i.val 1 = some o1.pm25 := by
    unfold lagShift
    rw [if_pos (by omega : 1 ≤ i.val)]
    have hix : i.val - 1 = j1 := by omega
    rw [hix, List.getElem?_eq_getElem hj1, hj1e]
    rfl
  have hl2 : lagShift (seriesOf df lid') i.val 2 = some o2.pm25 := by
    unfold lagShift
    rw [if_pos (by omega : 2 ≤ i.val)]
    have hix : i.val - 2 = j2 := by omega
    rw [hix, List.getElem?_eq_getElem hj2, hj2e]
    rfl
  have hl3 : lagShift (seriesOf df lid') i.val 3 = some o3.pm25 := by
    unfold lagShift
    rw [if_pos (by omega : 3 ≤ i.val)]
    have hix : i.val - 3 = j3 := by omega
    rw [hix, List.getElem?_eq_getElem hj3, hj3e]
    rfl
  have hwu : (incWindow df D).Pairwise (fun a b => a.id ≠ b.id ∨ a.date ≠ b.date) :=
    List.Pairwise.sublist (List.filter_sublist df) hu
  have hw1 : o1 ∈ incWindow df D :=
    List.mem_filter.mpr ⟨ho1, by simp only [decide_eq_true_eq]; omega⟩
  have hw2 : o2 ∈ incWindow df D :=
    List.mem_filter.mpr ⟨ho2, by simp only [decide_eq_true_eq]; omega⟩
  have hw3 : o3 ∈ incWindow df D :=
    List.mem_filter.mpr ⟨ho3, by simp only [decide_eq_true_eq]; omega⟩
  have il1 : Daily.lookupLag (incWindow df D) lid' D 1 = some o1.pm25 :=
    lookupLag_eq_of_mem hwu hw1 ho1id ho1d
  have il2 : Daily.lookupLag (incWindow df D) lid' D 2 = some o2.pm25 :=
    lookupLag_eq_of_mem hwu hw2 ho2id ho2d
  have il3 : Daily.lookupLag (incWindow df D) lid' D 3 = some o3.pm25 :=
    lookupLag_eq_of_mem hwu hw3 ho3id ho3d
  show (lagShift (seriesOf df lid') i.val 1, lagShift (seriesOf df lid') i.val 2,
    lagShift (seriesOf df lid') i.val 3) = incLagsAt df lid' D
  rw [hl1, hl2, hl3]
  unfold incLagsAt
  rw [il1, il2, il3]

/-- Claim C2, witness: the amended equivalence evaluated on the
four-consecutive-day history `exX1` at day 4. -/
theorem batch_inc_equiv_no_gap_witness :
    obsKeysUnique exX1 ∧
    (laggedRowX1.lagged_1, laggedRowX1.lagged_2, laggedRowX1.lagged_3) =
      incLagsAt exX1 ("X1") 4 :=
  ⟨by decide,
   batch_inc_equiv_no_gap exX1 ("X1") 4 (by decide)
     ⟨{ id := "X1", date := 3, pm25 := 30 }, by decide, by decide, by decide⟩
     ⟨{ id := "X1", date := 2, pm25 := 20 }, by decide, by decide, by decide⟩
     ⟨{ id := "X1", date := 1, pm25 := 10 }, by decide, by decide, by decide⟩
     laggedRowX1 (by decide) (by decide) (by decide)⟩

/-- Claim C3: every row of the batch output has all three lag fields
present; a location with fewer than 4 observations contributes zero rows;
and the concrete X1 scenario yields exactly the single day-4 row with lags
(30, 20, 10). -/
theorem batch_output_completeness :
    (∀ df : List Obs, ∀ r ∈ Backfill.load_air_quality_data df,
        r.lagged_1.isSome ∧ r.lagged_2.isSome ∧ r.lagged_3.isSome) ∧
    (∀ (df : List Obs) (lid : String),
        (df.filter (fun o => o.id == lid)).length < 4 →
        (Backfill.load_air_quality_data df).filter (fun r => r.id == lid) = []) ∧
    Backfill.load_air_quality_data exX1 = [laggedRowX1] := by
  refine ⟨?_, ?_, by decide⟩
  · intro df r hr
    rcases List.mem_filter.mp hr with ⟨-, hp⟩
    simp only [Bool.and_eq_true] at hp
    exact ⟨hp.1.1, hp.1.2, hp.2⟩
  · intro df lid hlen
    rw [List.filter_eq_nil_iff]
    intro r hr hpred
    rcases List.mem_filter.mp hr with ⟨hadd, hlags⟩
    obtain ⟨g, -, hmem⟩ := mem_backfill_add.mp hadd
    have hgid : r.id = g := shiftLags_mem_id hmem
    have hg : g = lid := by
      rw [← hgid]; exact beq_iff_eq.mp hpred
    subst hg
    obtain ⟨i, rfl⟩ := mem_shiftLags.mp hmem
    simp only [Bool.and_eq_true] at hlags
    have h3 : (lagShift (seriesOf df g) i.val 3).isSome = true := hlags.2
    have hi3 : 3 ≤ i.val := by
      by_contra hlt
      have hnone : lagShift (seriesOf df g) i.val 3 = none := by
        unfold lagShift; rw [if_neg hlt]
      rw [hnone] at h3; simp at h3
    have hilen : i.val < (seriesOf df g).length := i.isLt
    have hlen2 : (seriesOf df g).length =
        (df.filter (fun o => o.id == g)).length := length_seriesOf df g
    omega

/-- Claim C3, witness: the empty-contribution part evaluated on a location
with two observations, and the all-lags-present part on the X1 row. -/
theorem batch_output_completeness_witness :
    (exGap.filter (fun o => o.id == "L")).length < 4 ∧
    (Backfill.load_air_quality_data exGap).filter (fun r => r.id == "L") = [] ∧
    laggedRowX1.lagged_1.isSome :=
  ⟨by decide, batch_output_completeness.2.1 exGap ("L") (by decide),
   (batch_output_completeness.1 exX1 laggedRowX1 (by decide)).1⟩

/-- Claim C4: the daily pipeline keeps every ingested row unchanged in id,
date and pm25 (never dropping one), assigns `lagK` the pm25 of the same
observation of the same location at exactly `date - K` when it is in the trailing
window, and leaves `lagK` absent when no such observation is found. -/
theorem daily_lag_semantics (newRows window : List Obs)
    (hu : obsKeysUnique window) :
    (Daily.add_lagged_features newRows window).map
        (fun r => Obs.mk r.id r.date r.pm25) = newRows ∧
    (∀ r ∈ Daily.add_lagged_features newRows window, ∀ k ∈ ([1, 2, 3] : List Int),
      (∀ o ∈ window, o.id = r.id → o.date = r.date - k →
        r.lagOf k = some o.pm25) ∧
      (r.lagOf k ≠ none → ∃ o ∈ window, o.id = r.id ∧ o.date = r.date - k ∧
        r.lagOf k = some o.pm25)) := by
  refine ⟨daily_map_proj newRows window, ?_⟩
  intro r hr k hk
  obtain ⟨n, -, rfl⟩ := List.mem_map.mp hr
  have hk123 : k = 1 ∨ k = 2 ∨ k = 3 := by simpa using hk
  have hsel : ∀ k', k' = 1 ∨ k' = 2 ∨ k' = 3 →
      (LaggedObs.lagOf
        { id := n.id, date := n.date, pm25 := n.pm25,
          lagged_1 := Daily.lookupLag window n.id n.date 1,
          lagged_2 := Daily.lookupLag window n.id n.date 2,
          lagged_3 := Daily.lookupLag window n.id n.date 3 } k') =
        Daily.lookupLag window n.id n.date k' := by
    intro k' hk'
    rcases hk' with rfl | rfl | rfl <;> rfl
  constructor
  · intro o ho hoid hod
    rw [hsel k hk123]
    exact lookupLag_eq_of_mem hu ho hoid hod
  · intro hne
    rw [hsel k hk123] at hne ⊢
    obtain ⟨o, how, hoid, hod, heq⟩ := lookupLag_spec_of_some hne
    exact ⟨o, how, hoid, hod, heq⟩

/-- Claim C4, witness: evaluated on one new row against a gapped window
(day 9 present, day 8 missing, day 7 present). -/
theorem daily_lag_semantics_witness :
    obsKeysUnique exWin ∧
    (Daily.add_lagged_features exNew exWin).map
      (fun r => Obs.mk r.id r.date r.pm25) = exNew ∧
    exRowDaily.lagOf 1 = some 40 :=
  ⟨by decide, (daily_lag_semantics exNew exWin (by decide)).1,
   ((daily_lag_semantics exNew exWin (by decide)).2 exRowDaily (by decide) 1
       (by decide)).1 { id := "L", date := 9, pm25 := 40 } (by decide)
     (by decide) (by decide)⟩

/-- Claim C5: the fixed lag triple of each location, read once from the three
most recent historical records, heads every feature vector built for that
location unmodified, one vector per forecast day; in the concrete scenario
with triple (5, 6, 7) and three forecast days all three vectors carry
exactly (5, 6, 7). -/
theorem inference_lag_broadcast :
    (∀ (batch : List WeatherRow) (hist : List Obs) (lid : String)
        (l1 l2 l3 : Rat), Inference.fixedLagTriple hist lid = some (l1, l2, l3) →
      ∀ fr ∈ Inference.locationFeatureRows batch hist lid,
        fr.take 3 = [("lagged_1", l1), ("lagged_2", l2), ("lagged_3", l3)]) ∧
    (Inference.locationFeatureRows exBatch exHist567 ("L")).map
        (fun fr => fr.take 3) = [lagTriple567, lagTriple567, lagTriple567] := by
  refine ⟨?_, by decide⟩
  intro batch hist lid l1 l2 l3 htrip fr hfr
  obtain ⟨m1, m2, m3, w, htrip', -, rfl⟩ := mem_locationFeatureRows hfr
  rw [htrip] at htrip'
  obtain ⟨rfl, rfl, rfl⟩ : l1 = m1 ∧ l2 = m2 ∧ l3 = m3 := by
    have := Option.some.inj htrip'
    exact ⟨congrArg Prod.fst this, congrArg (fun t => t.snd.fst) this,
      congrArg (fun t => t.snd.snd) this⟩
  rfl

/-- Claim C5, witness: the broadcast fact applied to the day-4 feature
vector of the concrete scenario. -/
theorem inference_lag_broadcast_witness :
    Inference.fixedLagTriple exHist567 "L" = some (5, 6, 7) ∧
    exFr.take 3 = [("lagged_1", (5 : Rat)), ("lagged_2", 6), ("lagged_3", 7)] :=
  ⟨by decide,
   inference_lag_broadcast.1 exBatch exHist567 ("L") 5 6 7 (by decide) exFr
     (by decide)⟩

/-- Claim C6: every feature vector handed to the regressor lists its
features in exactly the training-time column order, for every location and
forecast day. -/
theorem inference_feature_order (batch : List WeatherRow) (hist : List Obs)
    (lid : String) :
    ∀ fr ∈ Inference.locationFeatureRows batch hist lid,
      fr.map Prod.fst = Inference.featureColumnOrder := by
  intro fr hfr
  obtain ⟨l1, l2, l3, w, -, -, rfl⟩ := mem_locationFeatureRows hfr
  rfl

/-- Claim C6, witness: the column order of the day-4 feature vector of the
concrete scenario. -/
theorem inference_feature_order_witness :
    exFr.map Prod.fst = Inference.featureColumnOrder :=
  inference_feature_order exBatch exHist567 ("L") exFr (by decide)

/-- Claim C7: every emitted prediction is non-negative; it equals the
clamped regressor output for its feature vector — exactly 0 when the raw
output is negative, and the raw output unchanged when non-negative. -/
theorem prediction_nonneg_clamped (model : List Rat → Rat) (today : Int)
    (locs : List String) (batch : List WeatherRow) (hist : List Obs) :
    ∀ p ∈ Inference.runInference model today locs batch hist,
      0 ≤ p.predicted_pm25 ∧
      ∃ fr ∈ Inference.locationFeatureRows batch hist p.id,
        p.predicted_pm25 = Inference.clampNonNeg (model (fr.map Prod.snd)) ∧
        (model (fr.map Prod.snd) < 0 → p.predicted_pm25 = 0) ∧
        (0 ≤ model (fr.map Prod.snd) → p.predicted_pm25 = model (fr.map Prod.snd)) := by
  intro p hp
  rcases List.mem_flatMap.mp hp with ⟨lid, -, hploc⟩
  rcases List.mem_map.mp hploc with ⟨item, hitem, rfl⟩
  have hfr : item.snd ∈ Inference.locationFeatureRows batch hist lid :=
    List.mem_map_of_mem Prod.snd hitem
  refine ⟨le_max_left 0 _, item.snd, hfr, rfl, ?_, ?_⟩
  · intro hneg
    exact max_eq_left (le_of_lt hneg)
  · intro hpos
    exact max_eq_right hpos

/-- Claim C7, witness: under the always-negative regressor stub, the day-4
prediction of the concrete scenario is exactly 0. -/
theorem prediction_nonneg_clamped_witness :
    0 ≤ exPred.predicted_pm25 :=
  (prediction_nonneg_clamped exModelNeg 0 ["L"] exBatch exHist567 exPred
    (by decide)).1

/-- Claim C8: a location with fewer than 3 historical records yields zero
predictions, and the run over the remaining locations proceeds exactly as
if the skipped location were absent. -/
theorem insufficient_history_skip (model : List Rat → Rat) (today : Int)
    (batch : List WeatherRow) (hist : List Obs) (lid : String)
    (pre post : List String)
    (h : (hist.filter (fun o => o.id == lid)).length < 3) :
    Inference.processLocation model today batch hist lid = [] ∧
    Inference.runInference model today (pre ++ lid :: post) batch hist =
      Inference.runInference model today pre batch hist ++
      Inference.runInference model today post batch hist := by
  have hnil : Inference.processLocation model today batch hist lid = [] := by
    unfold Inference.processLocation
    rw [locationFeatureItems_eq_nil h]
    rfl
  refine ⟨hnil, ?_⟩
  unfold Inference.runInference
  rw [List.flatMap_append, List.flatMap_cons, hnil, List.nil_append]

/-- Claim C8, witness: evaluated with a two-record history. -/
theorem insufficient_history_skip_witness :
    (exHist2.filter (fun o => o.id == "L")).length < 3 ∧
    Inference.processLocation exModelNeg 0 exBatch exHist2 ("L") = [] ∧
    Inference.runInference exModelNeg 0 ([] ++ "L" :: []) exBatch exHist2 =
      Inference.runInference exModelNeg 0 [] exBatch exHist2 ++
      Inference.runInference exModelNeg 0 [] exBatch exHist2 :=
  ⟨by decide, insufficient_history_skip exModelNeg 0 exBatch exHist2 ("L") [] []
    (by decide)⟩

/-- Claim C9: the output of the ingestion loop is exactly the rows of the
locations whose fetches succeeded, and a location whose fetch raises (any
error) contributes nothing while all other locations are still processed. -/
theorem ingestion_isolation (resp : String → AqicnResponse) (today : Int) :
    (∀ locs : List String, ingestDaily resp today locs =
      locs.filterMap (fun lid => (get_pm25 lid today (resp lid)).toOption)) ∧
    (∀ (pre post : List String) (lid : String),
      (get_pm25 lid today (resp lid)).toOption = none →
      ingestDaily resp today (pre ++ lid :: post) =
        ingestDaily resp today pre ++ ingestDaily resp today post) := by
  refine ⟨ingestDaily_eq_filterMap resp today, ?_⟩
  intro pre post lid hfail
  rw [ingestDaily_eq_filterMap, ingestDaily_eq_filterMap,
    ingestDaily_eq_filterMap, List.filterMap_append, List.filterMap_cons, hfail]

/-- Claim C9, witness: station bad fails while stations a and b are
still ingested. -/
theorem ingestion_isolation_witness :
    (get_pm25 ("bad") 0 (exResp ("bad"))).toOption = none ∧
    ingestDaily exResp 0 (["a"] ++ "bad" :: ["b"]) =
      ingestDaily exResp 0 ["a"] ++ ingestDaily exResp 0 ["b"] :=
  ⟨by decide, (ingestion_isolation exResp 0).2 ["a"] ["b"] ("bad") (by decide)⟩

/-- Claim C10: under the canonical-table key invariant, every batch output
row agrees with exactly one input row on id, date and pm25, and the output
never duplicates a key — so the output rows are a subset of the input rows
with only the lag columns added. -/
theorem batch_frame_property (df : List Obs) (hu : obsKeysUnique df) :
    (∀ r ∈ Backfill.load_air_quality_data df,
      df.countP (fun o => o.id == r.id && o.date == r.date &&
        o.pm25 == r.pm25) = 1) ∧
    (Backfill.load_air_quality_data df).Pairwise
      (fun a b => a.id ≠ b.id ∨ a.date ≠ b.date) := by
  constructor
  · intro r hr
    rcases List.mem_filter.mp hr with ⟨hadd, -⟩
    have hmem := mem_backfill_group hadd
    obtain ⟨i, heq⟩ := mem_shiftLags.mp hmem
    have hos : (seriesOf df r.id).get i ∈ seriesOf df r.id :=
      List.get_mem _ _ i.isLt
    have hodf : (seriesOf df r.id).get i ∈ df := (mem_seriesOf.mp hos).1
    have hoid : ((seriesOf df r.id).get i).id = r.id := (mem_seriesOf.mp hos).2
    have hodate : ((seriesOf df r.id).get i).date = r.date := by
      conv_rhs => rw [heq]
    have hopm : ((seriesOf df r.id).get i).pm25 = r.pm25 := by
      conv_rhs => rw [heq]
    have hge : 0 < df.countP (fun o => o.id == r.id && o.date == r.date &&
        o.pm25 == r.pm25) := by
      rw [List.countP_pos_iff]
      exact ⟨_, hodf, by
        simp only [Bool.and_eq_true, beq_iff_eq]
        exact ⟨⟨hoid, hodate⟩, hopm⟩⟩
    have hle : df.countP (fun o => o.id == r.id && o.date == r.date &&
        o.pm25 == r.pm25) ≤ 1 := by
      refine le_trans (List.countP_mono_left ?_) (countP_key_le_one df hu r.id r.date)
      intro x _ hx
      simp only [Bool.and_eq_true] at hx ⊢
      exact ⟨hx.1.1, hx.1.2⟩
    omega
  · exact List.Pairwise.sublist (List.filter_sublist _) (backfill_pairwise_keys df hu)

/-- Claim C10, witness: the frame property of the output row of the X1 scenario. -/
theorem batch_frame_property_witness :
    obsKeysUnique exX1 ∧
    exX1.countP (fun o => o.id == laggedRowX1.id && o.date == laggedRowX1.date &&
      o.pm25 == laggedRowX1.pm25) = 1 :=
  ⟨by decide, (batch_frame_property exX1 (by decide)).1 laggedRowX1 (by decide)⟩
